import Mathlib

/-!
Verification of the suppression-directive resolution engine of the Fixit lint
tool, together with its violation-report objects.

The modules fixit/common/ignores.py, fixit/common/comments.py and
fixit/common/line_mapping.py are not present under src/ (only their tests and
their caller surface are), so the engine — tokens, logical-line mapping,
directive parsing, the suppression index, `should_ignore` and
`unused_comments` — is modelled from the specification (spec.md, sections 3,
4.1, 4.2, 4.3 and 7).  fixit/common/report.py is present under src/ and the
report objects are embedded from that source directly.
-/

namespace Fixit

/-- Modelled from the spec: token kinds of the external tokenizer (spec section 3:
comment, newline-logical, newline-continuation, string-literal, other). -/
inductive TokKind
  | comment
  | newlineLogical
  | newlineCont
  | stringLit
  | other
deriving DecidableEq

/-- Modelled from the spec: a token has a kind, text, and start/end positions.
Only the line components of the positions are consumed by this engine, so the
embedding keeps the start line and end line. -/
structure Token where
  kind : TokKind
  text : String
  startLine : Nat
  endLine : Nat
deriving DecidableEq

/-- Modelled from the spec: a LogicalLine is a contiguous block of physical
lines forming one logical statement (spec section 3).  `hasStatement` records
whether the block contains a statement token (a string literal or other code
token, as opposed to comments and newlines only). -/
structure LogicalLine where
  startLine : Nat
  endLine : Nat
  hasStatement : Bool
deriving DecidableEq

/-- Physical lines spanned by a logical line. -/
def LogicalLine.lines (ll : LogicalLine) : List Nat :=
  List.range' ll.startLine (ll.endLine + 1 - ll.startLine)

/-- Whether a physical line belongs to a logical line. -/
def LogicalLine.containsLine (ll : LogicalLine) (l : Nat) : Bool :=
  decide (ll.startLine ≤ l) && decide (l ≤ ll.endLine)

/-- Modelled from the spec: the Logical Line Mapper walk (spec section 4.1).
A new LogicalLine starts after each logical-newline token; continuation
newlines, comments and multi-line string tokens merely extend the current
group.  `cur` is the first physical line of the group being built and
`hasStmt` whether a statement token was seen in it.  A trailing group through
`lastLine` is emitted at end of input. -/
def computeLLsAux : List Token → Nat → Bool → Nat → List LogicalLine
  | [], cur, hasStmt, lastLine =>
      if cur ≤ lastLine then [⟨cur, lastLine, hasStmt⟩] else []
  | t :: ts, cur, hasStmt, lastLine =>
      match t.kind with
      | .newlineLogical =>
          ⟨cur, max t.endLine cur, hasStmt⟩ ::
            computeLLsAux ts (max t.endLine cur + 1) false lastLine
      | .comment => computeLLsAux ts cur hasStmt lastLine
      | .newlineCont => computeLLsAux ts cur hasStmt lastLine
      | .stringLit => computeLLsAux ts cur true lastLine
      | .other => computeLLsAux ts cur true lastLine

/-- Modelled from the spec: `LineMappingInfo.compute` — the total mapping from
physical lines to logical lines, represented as the ordered list of
LogicalLines of the file. -/
def computeLogicalLines (tokens : List Token) (lastLine : Nat) : List LogicalLine :=
  computeLLsAux tokens 1 false lastLine

/-! ### Character-level string helpers used by the directive parser -/

/-- Both-ends whitespace trim over a character list. -/
def trimChars (cs : List Char) : List Char :=
  ((cs.dropWhile (fun c => c == ' ')).reverse.dropWhile (fun c => c == ' ')).reverse

/-- Lower-casing over a character list (the parser is case-tolerant). -/
def lowerChars (cs : List Char) : List Char :=
  cs.map Char.toLower

/-- Split a character list on a separator character. -/
def splitOnChar (sep : Char) : List Char → List (List Char)
  | [] => [[]]
  | c :: cs =>
      let r := splitOnChar sep cs
      if c == sep then [] :: r
      else
        match r with
        | [] => [[c]]
        | g :: gs => (c :: g) :: gs

/-- Rejoin character-list groups with a separator character. -/
def intercalateChar (sep : Char) : List (List Char) → List Char
  | [] => []
  | [g] => g
  | g :: gs => g ++ sep :: intercalateChar sep gs

/-- Strip the leading comment hash and surrounding spaces from a comment text. -/
def stripHashC (cs : List Char) : List Char :=
  match trimChars cs with
  | '#' :: rest => trimChars rest
  | t => t

/-- Modelled from the spec: the injected CodeAlias table (spec section 3) maps a
legacy short code to its canonical rule code; codes absent from the table are
kept verbatim. -/
def resolveCode (aliases : List (String × String)) (code : String) : String :=
  match aliases.find? (fun p => p.1 == code) with
  | some p => p.2
  | none => code

/-- Modelled from the spec: a comma-separated code list is split, trimmed, and
each entry is resolved through the alias table to its canonical code (spec
section 4.2). -/
def parseCodes (aliases : List (String × String)) (cs : List Char) : List String :=
  (((splitOnChar ',' cs).map trimChars).filter (fun g => !g.isEmpty)).map
    (fun g => resolveCode aliases (String.mk g))

/-- Modelled from the spec: parse the text after a directive word, which must be
of the form `: codes` or `: codes: reason`; returns the codes text and the
optional reason text. -/
def parseColonParts (cs : List Char) : Option (List Char × Option (List Char)) :=
  match trimChars cs with
  | ':' :: rest =>
      match splitOnChar ':' rest with
      | [] => none
      | [codes] => some (trimChars codes, none)
      | codes :: more => some (trimChars codes, some (trimChars (intercalateChar ':' more)))
  | _ => none

/-- Modelled from the spec: the tagged directive variants (spec section 3). -/
inductive Directive
  | lineNoqa
  | codedNoqa (codes : List String)
  | fileNoqa (codes : List String)
  | lintIgnore (codes : List String)
  | lintFixme (codes : List String)
deriving DecidableEq

/-- Modelled from the spec: classification of one comment text by prefix
pattern (spec section 4.2).  A bare noqa yields `lineNoqa`; `noqa: codes`
yields `codedNoqa`; `noqa-file` requires both a code list and a reason and is
otherwise inert (spec sections 4.2 and 7); `lint-ignore` / `lint-fixme`
require a code list (the in-file reason is optional, per the grammar of
section 4.2 and the error-handling rules of section 7, which make only
`noqa-file` inert on a missing reason).  Any unclassified comment is inert. -/
def classifyComment (aliases : List (String × String)) (text : String) : Option Directive :=
  let body := stripHashC text.data
  let low := lowerChars body
  if List.isPrefixOf ("noqa-file".data) low then
    match parseColonParts (body.drop 9) with
    | some (codesTxt, some reason) =>
        let codes := parseCodes aliases codesTxt
        if codes.isEmpty || reason.isEmpty then none else some (.fileNoqa codes)
    | _ => none
  else if List.isPrefixOf ("lint-ignore".data) low then
    match parseColonParts (body.drop 11) with
    | some (codesTxt, _) =>
        let codes := parseCodes aliases codesTxt
        if codes.isEmpty then none else some (.lintIgnore codes)
    | none => none
  else if List.isPrefixOf ("lint-fixme".data) low then
    match parseColonParts (body.drop 10) with
    | some (codesTxt, _) =>
        let codes := parseCodes aliases codesTxt
        if codes.isEmpty then none else some (.lintFixme codes)
    | none => none
  else if List.isPrefixOf ("noqa".data) low then
    let rest := body.drop 4
    if (trimChars rest).isEmpty then some .lineNoqa
    else
      match parseColonParts rest with
      | some (codesTxt, _) =>
          let codes := parseCodes aliases codesTxt
          if codes.isEmpty then some .lineNoqa else some (.codedNoqa codes)
      | none => none
  else none

/-- Modelled from the spec: a continuation comment line, written with a
secondary `lint:` prefix, extends the preceding lint-fixme comment (spec
sections 3 and 4.2). -/
def isLintContinuation (text : String) : Bool :=
  List.isPrefixOf ("lint:".data) (lowerChars (stripHashC text.data))

/-- Modelled from the spec: scan the comment tokens in order, classify each
into a directive, and merge `lint:` continuation lines into the preceding
lint-fixme comment's own line range.  Produces (directive, comment start
line, comment end line) triples in source order; inert comments produce
nothing. -/
def gatherAux (aliases : List (String × String)) :
    List Token → List (Directive × Nat × Nat) → List (Directive × Nat × Nat)
  | [], acc => acc.reverse
  | t :: ts, acc =>
      if t.kind = .comment then
        if isLintContinuation t.text then
          match acc with
          | (Directive.lintFixme cs, s, _) :: rest =>
              gatherAux aliases ts ((Directive.lintFixme cs, s, t.endLine) :: rest)
          | _ => gatherAux aliases ts acc
        else
          match classifyComment aliases t.text with
          | some d => gatherAux aliases ts ((d, t.startLine, t.endLine) :: acc)
          | none => gatherAux aliases ts acc
      else gatherAux aliases ts acc

/-- Classified comments of a token stream, in source order. -/
def gatherComments (aliases : List (String × String)) (tokens : List Token) :
    List (Directive × Nat × Nat) :=
  gatherAux aliases tokens []

/-- The logical line that contains a given physical line, if any. -/
def llContaining (lls : List LogicalLine) (l : Nat) : Option LogicalLine :=
  lls.find? (fun ll => ll.containsLine l)

/-- The first statement-bearing logical line starting strictly after a line. -/
def nextStatementLL (lls : List LogicalLine) (afterLine : Nat) : Option LogicalLine :=
  lls.find? (fun ll => decide (afterLine < ll.startLine) && ll.hasStatement)

/-- Modelled from the spec: the applicable line set of a classified comment
(spec section 4.2).  LineNoqa/CodedNoqa: the lines of the LogicalLine
containing the comment's trailing physical line.  FileNoqa: every physical
line from 1 through EOF.  LintIgnore/LintFixme: the lines of the next
statement in source order (the LogicalLine following the comment's own, per
the gloss of section 4.2 and the duplicate-directive rule of section 4.3);
when no following statement exists the set extends from the comment through
EOF (section 4.2). -/
def applicableFor (lls : List LogicalLine) (lastLine : Nat) (d : Directive)
    (s e : Nat) : List Nat :=
  match d with
  | .lineNoqa =>
      match llContaining lls e with
      | some ll => ll.lines
      | none => [e]
  | .codedNoqa _ =>
      match llContaining lls e with
      | some ll => ll.lines
      | none => [e]
  | .fileNoqa _ => List.range' 1 lastLine
  | .lintIgnore _ =>
      let ownEnd :=
        match llContaining lls e with
        | some ll => ll.endLine
        | none => e
      match nextStatementLL lls ownEnd with
      | some ll => ll.lines
      | none => List.range' s (lastLine + 1 - s)
  | .lintFixme _ =>
      let ownEnd :=
        match llContaining lls e with
        | some ll => ll.endLine
        | none => e
      match nextStatementLL lls ownEnd with
      | some ll => ll.lines
      | none => List.range' s (lastLine + 1 - s)

/-- Modelled from the spec: a SuppressionComment owns its directive, its own
physical line range, its computed applicable line set, and the mutable
`used_by` set of violation identifiers it has silenced (spec section 3). -/
structure SuppressionComment where
  directive : Directive
  startLine : Nat
  endLine : Nat
  applicableLines : List Nat
  used_by : List (Nat × String)
deriving DecidableEq

/-- Whether a directive is one of the reasoned lint-style kinds, which take
priority over the legacy noqa kinds (spec section 4.3). -/
def isLintStyle : Directive → Bool
  | .lintIgnore _ => true
  | .lintFixme _ => true
  | _ => false

/-- Modelled from the spec: the SuppressionIndex owning the file-wide code set
and the local comments in priority order (spec section 3). -/
structure IgnoreInfo where
  fileWideCodes : List String
  comments : List SuppressionComment
deriving DecidableEq

/-- Modelled from the spec: `IgnoreInfo.compute` builds the index (spec
section 4.3).  FileNoqa directives contribute their codes to the file-wide
set and are tracked separately; every other directive becomes a local
SuppressionComment with its applicable line set, ordered with lint-style
comments before noqa-style comments and by source position within equal
priority. -/
def IgnoreInfo.compute (aliases : List (String × String)) (tokens : List Token)
    (lastLine : Nat) : IgnoreInfo :=
  let lls := computeLogicalLines tokens lastLine
  let raw := gatherComments aliases tokens
  let fileWide :=
    (raw.filterMap (fun g =>
      match g.1 with
      | Directive.fileNoqa cs => some cs
      | _ => none)).flatten
  let locals := raw.filter (fun g =>
    match g.1 with
    | Directive.fileNoqa _ => false
    | _ => true)
  let scs := locals.map (fun g =>
    SuppressionComment.mk g.1 g.2.1 g.2.2 (applicableFor lls lastLine g.1 g.2.1 g.2.2) [])
  ⟨fileWide,
    scs.filter (fun c => isLintStyle c.directive) ++
      scs.filter (fun c => !isLintStyle c.directive)⟩

/-- Modelled from the spec: whether a directive's code set matches a canonical
violation code — a bare noqa matches every code, a coded directive matches the
codes it lists; file-wide directives are resolved separately (spec
section 4.3). -/
def directiveMatches (d : Directive) (canonical : String) : Bool :=
  match d with
  | .lineNoqa => true
  | .codedNoqa cs => cs.contains canonical
  | .fileNoqa _ => false
  | .lintIgnore cs => cs.contains canonical
  | .lintFixme cs => cs.contains canonical

/-- Whether a comment is applicable to a violation (line, canonical code). -/
def commentMatches (c : SuppressionComment) (line : Nat) (canonical : String) : Bool :=
  c.applicableLines.contains line && directiveMatches c.directive canonical

/-- Modelled from the spec: mark the first matching comment in priority order
as used by recording the violation's identity in its `used_by` set (spec
section 4.3, query step 2). -/
def markFirst (line : Nat) (canonical origCode : String) :
    List SuppressionComment → Option (List SuppressionComment)
  | [] => none
  | c :: cs =>
      if commentMatches c line canonical then
        some ({ c with used_by := c.used_by ++ [(line, origCode)] } :: cs)
      else
        (markFirst line canonical origCode cs).map (fun l => c :: l)

/-- Modelled from the spec: `should_ignore` for a violation (line, code) — the
report code is resolved through the alias table; file-wide codes suppress
without usage tracking; otherwise the first matching local comment in
priority order is marked used (spec section 4.3).  Returns the decision and
the updated index. -/
def should_ignore (aliases : List (String × String)) (info : IgnoreInfo)
    (line : Nat) (code : String) : Bool × IgnoreInfo :=
  let canonical := resolveCode aliases code
  if info.fileWideCodes.contains canonical then (true, info)
  else
    match markFirst line canonical code info.comments with
    | some cs => (true, { info with comments := cs })
    | none => (false, info)

/-- Modelled from the spec: the unused-comments audit — every local comment
whose `used_by` set is empty (spec section 4.3). -/
def unused_comments (info : IgnoreInfo) : List SuppressionComment :=
  info.comments.filter (fun c => c.used_by.isEmpty)

/-- All physical lines of a file on which a freshly-built index suppresses a
given code (mirrors the per-line query loop of the caller surface). -/
def ignoredLines (aliases : List (String × String)) (info : IgnoreInfo)
    (lastLine : Nat) (code : String) : List Nat :=
  (List.range' 1 lastLine).filter (fun l => (should_ignore aliases info l code).1)

/-! ### Concrete token streams for the claim files -/

/-- A one-line statement token. -/
def stmtTok (t : String) (l : Nat) : Token := ⟨TokKind.other, t, l, l⟩

/-- A logical-newline token. -/
def nlTok (l : Nat) : Token := ⟨TokKind.newlineLogical, "", l, l⟩

/-- A comment token on one physical line. -/
def commentTok (t : String) (l : Nat) : Token := ⟨TokKind.comment, t, l, l⟩

/-- The injected alias table of the reference test surface: legacy code IG00
resolves to the canonical code IgnoredRule. -/
def stdAliases : List (String × String) := [("IG00", "IgnoredRule")]

/-- Token stream of the six-line file whose line 3 is a lint-ignore comment
and whose line 4 is a one-line statement. -/
def lintIgnoreTokens : List Token :=
  [ stmtTok ("fn1()") 1, nlTok 1,
    nlTok 2,
    commentTok ("# lint-ignore: IgnoredRule: Some reason") 3, nlTok 3,
    stmtTok ("fn2()") 4, nlTok 4,
    nlTok 5,
    stmtTok ("fn3()") 6, nlTok 6 ]

/-- Suppression index of the lint-ignore file (EOF line 7). -/
def lintIgnoreInfo : IgnoreInfo := IgnoreInfo.compute stdAliases lintIgnoreTokens 7

/-- C1: the lint-ignore comment on line 3 suppresses IgnoredRule on line 4 (the
immediately following statement) but not on line 3 itself nor on line 6; its
applicable line set is exactly the physical-line set of the LogicalLine
immediately following the comment's own LogicalLine, namely the line-4
logical line. -/
theorem C1_lint_ignore_next_statement :
    (should_ignore stdAliases lintIgnoreInfo 4 ("IgnoredRule")).1 = true ∧
    (should_ignore stdAliases lintIgnoreInfo 3 ("IgnoredRule")).1 = false ∧
    (should_ignore stdAliases lintIgnoreInfo 6 ("IgnoredRule")).1 = false ∧
    ignoredLines stdAliases lintIgnoreInfo 7 ("IgnoredRule") = [4] ∧
    llContaining (computeLogicalLines lintIgnoreTokens 7) 3 = some ⟨3, 3, false⟩ ∧
    (computeLogicalLines lintIgnoreTokens 7).find?
      (fun ll => decide (3 < ll.startLine)) = some ⟨4, 4, true⟩ ∧
    lintIgnoreInfo.comments.map (fun c => c.applicableLines) =
      [LogicalLine.lines ⟨4, 4, true⟩] := by
  decide

/-- Token stream of the file whose lines 1-2 are one call joined by an explicit
backslash continuation with a trailing coded noqa on line 2, and whose lines
6-9 are one call around a multi-line string literal with a trailing coded
noqa on line 9. -/
def noqaMultilineTokens : List Token :=
  [ stmtTok ("fn1(line,") 1, Token.mk TokKind.newlineCont "" 1 1,
    stmtTok ("continuation)") 2, commentTok ("# noqa: IgnoredRule") 2, nlTok 2,
    nlTok 3,
    stmtTok ("fn2()") 4, nlTok 4,
    nlTok 5,
    stmtTok ("fn3(") 6, Token.mk TokKind.stringLit "multiline string" 6 9,
    stmtTok (")") 9, commentTok ("# noqa: IgnoredRule") 9, nlTok 9 ]

/-- Suppression index of the multiline-noqa file (EOF line 10). -/
def noqaMultilineInfo : IgnoreInfo := IgnoreInfo.compute stdAliases noqaMultilineTokens 10

/-- C2: each trailing coded noqa suppresses its code on the whole logical line
containing the comment's last physical line: the backslash-continued call's
noqa suppresses lines 1 and 2, the multi-line-string call's noqa suppresses
lines 6 through 9, and nothing else is suppressed; each comment's applicable
set equals the line set of the logical line containing its trailing line. -/
theorem C2_trailing_noqa_whole_logical_line :
    ignoredLines stdAliases noqaMultilineInfo 10 ("IgnoredRule") = [1, 2, 6, 7, 8, 9] ∧
    llContaining (computeLogicalLines noqaMultilineTokens 10) 2 = some ⟨1, 2, true⟩ ∧
    llContaining (computeLogicalLines noqaMultilineTokens 10) 9 = some ⟨6, 9, true⟩ ∧
    noqaMultilineInfo.comments.map (fun c => c.applicableLines) =
      [LogicalLine.lines ⟨1, 2, true⟩, LogicalLine.lines ⟨6, 9, true⟩] := by
  decide

/-- Token stream of the two-line file with a lint-ignore on line 1 and a
statement with a trailing bare noqa on line 2. -/
def ignoreBeforeNoqaTokens : List Token :=
  [ commentTok ("# lint-ignore: Ignored999Rule: Some reason") 1, nlTok 1,
    stmtTok ("fn()") 2, commentTok ("# noqa") 2, nlTok 2 ]

/-- Suppression index of that file, then the state after resolving the single
violation (line 2, Ignored999Rule). -/
def ignoreBeforeNoqaStep : Bool × IgnoreInfo :=
  should_ignore stdAliases (IgnoreInfo.compute stdAliases ignoreBeforeNoqaTokens 2)
    2 ("Ignored999Rule")

/-- C3: with a lint-ignore and a trailing noqa both covering line 2 and one
violation reported there, the violation is suppressed, the lint-ignore
comment (line 1) is the one marked used (non-empty used_by), and the noqa
comment (line 2) remains unused and is returned by the audit. -/
theorem C3_lint_ignore_used_before_noqa :
    ignoreBeforeNoqaStep.1 = true ∧
    ignoreBeforeNoqaStep.2.comments.map (fun c => c.directive) =
      [Directive.lintIgnore ["Ignored999Rule"], Directive.lineNoqa] ∧
    (ignoreBeforeNoqaStep.2.comments.filter (fun c => !c.used_by.isEmpty)).map
      (fun c => c.startLine) = [1] ∧
    (unused_comments ignoreBeforeNoqaStep.2).map (fun c => c.startLine) = [2] ∧
    (unused_comments ignoreBeforeNoqaStep.2).map (fun c => c.directive) =
      [Directive.lineNoqa] := by
  decide

/-- Token stream of the three-line file with two duplicate lint-ignore
comments (lines 1 and 2) and a statement on line 3. -/
def duplicateIgnoresTokens : List Token :=
  [ commentTok ("# lint-ignore: Ignored999Rule: First") 1, nlTok 1,
    commentTok ("# lint-ignore: Ignored999Rule: Second") 2, nlTok 2,
    stmtTok ("fn()") 3, nlTok 3 ]

/-- Suppression index of the duplicate-lint-ignore file, then the state after
resolving the single violation (line 3, Ignored999Rule). -/
def duplicateIgnoresStep : Bool × IgnoreInfo :=
  should_ignore stdAliases (IgnoreInfo.compute stdAliases duplicateIgnoresTokens 3)
    3 ("Ignored999Rule")

/-- C4: both duplicate lint-ignore comments target the same following statement
(line 3); after one violation there, exactly the first comment (line 1) is
marked used and the duplicate (line 2) has an empty used_by set and appears
in the unused-comments audit. -/
theorem C4_duplicate_lint_ignores_first_used :
    duplicateIgnoresStep.1 = true ∧
    duplicateIgnoresStep.2.comments.map (fun c => c.applicableLines) = [[3], [3]] ∧
    (duplicateIgnoresStep.2.comments.filter (fun c => !c.used_by.isEmpty)).map
      (fun c => c.startLine) = [1] ∧
    (unused_comments duplicateIgnoresStep.2).map (fun c => c.startLine) = [2] := by
  decide

/-- Token stream of the two-line file headed by a single-code noqa-file
directive. -/
def noqaFileTokens : List Token :=
  [ commentTok ("# noqa-file: IgnoredRule: Some reason") 1, nlTok 1,
    stmtTok ("fn1()") 2, nlTok 2 ]

/-- Suppression index of the single-code noqa-file file (EOF line 3). -/
def noqaFileInfo : IgnoreInfo := IgnoreInfo.compute stdAliases noqaFileTokens 3

/-- Token stream of the two-line file headed by a multi-code noqa-file
directive. -/
def noqaFileMultiTokens : List Token :=
  [ commentTok ("# noqa-file: IgnoredRule, Ignored1Rule, Ignored2Rule: Some reason") 1,
    nlTok 1,
    stmtTok ("fn1()") 2, nlTok 2 ]

/-- Suppression index of the multi-code noqa-file file (EOF line 3). -/
def noqaFileMultiInfo : IgnoreInfo := IgnoreInfo.compute stdAliases noqaFileMultiTokens 3

/-- C5: a noqa-file directive on line 1 suppresses every listed code, and a
legacy alias of a listed code, on every physical line of the file from
line 1 through EOF (including the directive's own line), both for a single
code and for a comma-separated code list. -/
theorem C5_noqa_file_whole_file :
    ignoredLines stdAliases noqaFileInfo 3 ("IgnoredRule") = [1, 2, 3] ∧
    ignoredLines stdAliases noqaFileInfo 3 ("IG00") = [1, 2, 3] ∧
    ignoredLines stdAliases noqaFileMultiInfo 3 ("Ignored1Rule") = [1, 2, 3] ∧
    ignoredLines stdAliases noqaFileMultiInfo 3 ("IgnoredRule") = [1, 2, 3] ∧
    noqaFileInfo.fileWideCodes = ["IgnoredRule"] ∧
    noqaFileMultiInfo.fileWideCodes = ["IgnoredRule", "Ignored1Rule", "Ignored2Rule"] := by
  decide

/-- Token stream of the four-line file whose first two comments are malformed
noqa-file directives (one missing its code list, one missing its reason). -/
def noqaFileIncompleteTokens : List Token :=
  [ commentTok ("# noqa-file") 1, nlTok 1,
    commentTok ("# noqa-file: IgnoredRule") 2, nlTok 2,
    commentTok ("# Neither of these noqa-files should work because they are incomplete") 3,
    nlTok 3,
    stmtTok ("fn1()") 4, nlTok 4 ]

/-- Suppression index of the malformed noqa-file file (EOF line 5). -/
def noqaFileIncompleteInfo : IgnoreInfo :=
  IgnoreInfo.compute stdAliases noqaFileIncompleteTokens 5

/-- C6: a noqa-file directive missing its code list or missing its reason is
parsed as inert text — the index contains no file-wide codes and no local
comments, and should_ignore returns false for every line and every code. -/
theorem C6_incomplete_noqa_file_inert :
    noqaFileIncompleteInfo.fileWideCodes = [] ∧
    noqaFileIncompleteInfo.comments = [] ∧
    ∀ (line : Nat) (code : String),
      (should_ignore stdAliases noqaFileIncompleteInfo line code).1 = false := by
  refine ⟨by decide, by decide, ?_⟩
  intro line code
  rfl

/-- Token stream of the one-statement file carrying the coded noqa comment
listing the legacy alias IG00 together with the canonical code IgnoredRule. -/
def aliasNoqaTokens : List Token :=
  [ stmtTok ("fn1()") 1, commentTok ("# noqa: IG00, IgnoredRule") 1, nlTok 1 ]

/-- Suppression index of the alias file (EOF line 2). -/
def aliasNoqaInfo : IgnoreInfo := IgnoreInfo.compute stdAliases aliasNoqaTokens 2

/-- C7: the comment listing IG00 (legacy alias of IgnoredRule) and IgnoredRule
suppresses line 1 both for a report coded IgnoredRule and for a report coded
IG00 — alias resolution applies symmetrically to stored codes and to query
codes — and only on that line. -/
theorem C7_alias_resolution_symmetric :
    (should_ignore stdAliases aliasNoqaInfo 1 ("IgnoredRule")).1 = true ∧
    (should_ignore stdAliases aliasNoqaInfo 1 ("IG00")).1 = true ∧
    ignoredLines stdAliases aliasNoqaInfo 2 ("IgnoredRule") = [1] ∧
    ignoredLines stdAliases aliasNoqaInfo 2 ("IG00") = [1] := by
  decide

/-- Token stream of the file consisting only of a lint-ignore comment on its
single source line. -/
def lintIgnoreEofTokens : List Token :=
  [ commentTok ("# lint-ignore: IgnoredRule") 1, nlTok 1 ]

/-- Suppression index of the lint-ignore-at-EOF file (EOF line 2). -/
def lintIgnoreEofInfo : IgnoreInfo := IgnoreInfo.compute stdAliases lintIgnoreEofTokens 2

/-- C8: a lint-ignore comment that is the last logical construct of the file
has no following statement, so its applicable set extends through EOF: every
line of the file up to and including the EOF line is suppressed for the
listed code. -/
theorem C8_lint_ignore_through_eof :
    ignoredLines stdAliases lintIgnoreEofInfo 2 ("IgnoredRule") = [1, 2] ∧
    nextStatementLL (computeLogicalLines lintIgnoreEofTokens 2) 1 = none ∧
    lintIgnoreEofInfo.comments.map (fun c => c.applicableLines) = [[1, 2]] := by
  decide

/-! ### Violation report objects, embedded from src/fixit/common/report.py

The node, module, module-bytes and patch types belong to external
collaborators (the ast / libcst libraries and fixit.common.autofix), so the
report structures are parameterised over them; `LintPatch.get(...).minimize()`
is likewise passed in as a function parameter. -/

/-- Raised by pickling; embeds pickle.PicklingError carrying its message. -/
inductive PicklingError
  | mk (msg : String)
deriving DecidableEq

/-- The message of the PicklingError raised by BaseLintRuleReport.reduce
(report.py lines 48-54). -/
def picklingErrorMessage : String :=
  "Lint rule reports are potentially very complex objects. They can contain a syntax tree or an entire module's source code. They should not be pickled (or returned by a multiprocessing worker). Instead, extract the fields you care about, and pickle those."

/-- BaseLintRuleReport: file_path, code, message, line and column fields
(report.py lines 17-39). -/
structure BaseLintRuleReport where
  file_path : String
  code : String
  message : String
  line : Int
  column : Int
deriving DecidableEq

/-- BaseLintRuleReport.patch always returns None (report.py lines 41-43). -/
def BaseLintRuleReport.patch (Patch : Type) (_r : BaseLintRuleReport) : Option Patch :=
  none

/-- BaseLintRuleReport's reduce hook unconditionally raises PicklingError, so
pickling a report always fails (report.py lines 48-54); the success type is
the reduction data a picklable object would return, never produced here. -/
def BaseLintRuleReport.reduce (_r : BaseLintRuleReport) : Except PicklingError Unit :=
  Except.error (PicklingError.mk picklingErrorMessage)

/-- AstLintRuleReport: adds the ast node field (report.py lines 57-71). -/
structure AstLintRuleReport (Node : Type) extends BaseLintRuleReport where
  node : Node

/-- AstLintRuleReport inherits patch from the base class. -/
def AstLintRuleReport.patch (Patch : Type) (Node : Type) (r : AstLintRuleReport Node) :
    Option Patch :=
  r.toBaseLintRuleReport.patch Patch

/-- AstLintRuleReport inherits reduce from the base class. -/
def AstLintRuleReport.reduce (Node : Type) (r : AstLintRuleReport Node) :
    Except PicklingError Unit :=
  r.toBaseLintRuleReport.reduce

/-- CstLintRuleReport: adds the cst node, metadata wrapper, module bytes, the
optional replacement node and the patch cache slot (report.py lines 74-95).
The constructor initialises the cache slot to None; `cached_patch` embeds the
`_cached_patch` attribute. -/
structure CstLintRuleReport (Node Module Bytes Patch : Type) extends BaseLintRuleReport where
  node : Node
  module : Module
  module_bytes : Bytes
  replacement_node : Option Node
  cached_patch : Option Patch

/-- CstLintRuleReport inherits reduce from the base class. -/
def CstLintRuleReport.reduce (Node Module Bytes Patch : Type)
    (r : CstLintRuleReport Node Module Bytes Patch) : Except PicklingError Unit :=
  r.toBaseLintRuleReport.reduce

/-- The CstLintRuleReport constructor (report.py lines 75-95): every freshly
constructed report has an empty patch cache. -/
def CstLintRuleReport.make (Node Module Bytes Patch : Type) (file_path code message : String)
    (line column : Int) (node : Node) (module : Module) (module_bytes : Bytes)
    (replacement_node : Option Node) : CstLintRuleReport Node Module Bytes Patch :=
  { file_path := file_path, code := code, message := message, line := line,
    column := column, node := node, module := module, module_bytes := module_bytes,
    replacement_node := replacement_node, cached_patch := none }

/-- CstLintRuleReport.patch (report.py lines 98-114): None when there is no
replacement node; otherwise the cached patch if present, else the patch
computed by `getMinimized` (standing for `LintPatch.get(...).minimize()`),
which is stored in the cache.  Mutation of the cache slot is embedded as
returning the updated report alongside the value. -/
def CstLintRuleReport.patch (Node Module Bytes Patch : Type)
    (getMinimized : Module → Node → Node → Patch)
    (r : CstLintRuleReport Node Module Bytes Patch) :
    Option Patch × CstLintRuleReport Node Module Bytes Patch :=
  match r.replacement_node with
  | none => (none, r)
  | some rn =>
      match r.cached_patch with
      | some cached => (some cached, r)
      | none =>
          let cached := getMinimized r.module r.node rn
          (some cached, { r with cached_patch := some cached })

/-- C9: for every report object — base, ast-backed or cst-backed — the reduce
hook returns the PicklingError unconditionally, regardless of field values,
so no full violation report can ever be pickled. -/
theorem C9_reduce_always_raises :
    (∀ r : BaseLintRuleReport,
      r.reduce = Except.error (PicklingError.mk picklingErrorMessage)) ∧
    (∀ (Node : Type) (r : AstLintRuleReport Node),
      AstLintRuleReport.reduce Node r =
        Except.error (PicklingError.mk picklingErrorMessage)) ∧
    (∀ (Node Module Bytes Patch : Type) (r : CstLintRuleReport Node Module Bytes Patch),
      CstLintRuleReport.reduce Node Module Bytes Patch r =
        Except.error (PicklingError.mk picklingErrorMessage)) :=
  ⟨fun _ => rfl, fun _ _ => rfl, fun _ _ _ _ _ => rfl⟩

/-- C10: a CstLintRuleReport's patch is None exactly when replacement_node is
None; accessing patch is idempotent — a second access returns the identical
cached value and the identical state; an access never changes any field other
than the patch cache; a freshly constructed report with a replacement node
caches the computed patch on first access; and BaseLintRuleReport and
AstLintRuleReport always give a None patch. -/
theorem C10_patch_caching :
    ∀ (Node Module Bytes Patch : Type) (getMinimized : Module → Node → Node → Patch)
      (r : CstLintRuleReport Node Module Bytes Patch),
      ((CstLintRuleReport.patch Node Module Bytes Patch getMinimized r).1 = none ↔
        r.replacement_node = none) ∧
      CstLintRuleReport.patch Node Module Bytes Patch getMinimized
          (CstLintRuleReport.patch Node Module Bytes Patch getMinimized r).2 =
        CstLintRuleReport.patch Node Module Bytes Patch getMinimized r ∧
      ((CstLintRuleReport.patch Node Module Bytes Patch getMinimized r).2.toBaseLintRuleReport =
          r.toBaseLintRuleReport ∧
        (CstLintRuleReport.patch Node Module Bytes Patch getMinimized r).2.node = r.node ∧
        (CstLintRuleReport.patch Node Module Bytes Patch getMinimized r).2.module = r.module ∧
        (CstLintRuleReport.patch Node Module Bytes Patch getMinimized r).2.module_bytes =
          r.module_bytes ∧
        (CstLintRuleReport.patch Node Module Bytes Patch getMinimized r).2.replacement_node =
          r.replacement_node) ∧
      (∀ (fp c m : String) (li co : Int) (n : Node) (mo : Module) (mb : Bytes) (rn : Node),
        CstLintRuleReport.patch Node Module Bytes Patch getMinimized
            (CstLintRuleReport.make Node Module Bytes Patch fp c m li co n mo mb (some rn)) =
          (some (getMinimized mo n rn),
            { CstLintRuleReport.make Node Module Bytes Patch fp c m li co n mo mb (some rn) with
                cached_patch := some (getMinimized mo n rn) })) ∧
      (∀ b : BaseLintRuleReport, b.patch Patch = none) ∧
      (∀ a : AstLintRuleReport Node, AstLintRuleReport.patch Patch Node a = none) := by
  intro Node Module Bytes Patch getMinimized r
  refine ⟨?_, ?_, ?_, ?_, fun _ => rfl, fun _ => rfl⟩
  case _ =>
    cases h : r.replacement_node with
    | none =>
        simp [CstLintRuleReport.patch, h]
    | some rn =>
        cases hc : r.cached_patch with
        | none => simp [CstLintRuleReport.patch, h, hc]
        | some cached => simp [CstLintRuleReport.patch, h, hc]
  case _ =>
    cases h : r.replacement_node with
    | none => simp [CstLintRuleReport.patch, h]
    | some rn =>
        cases hc : r.cached_patch with
        | none => simp [CstLintRuleReport.patch, h, hc]
        | some cached => simp [CstLintRuleReport.patch, h, hc]
  case _ =>
    cases h : r.replacement_node with
    | none => simp [CstLintRuleReport.patch, h]
    | some rn =>
        cases hc : r.cached_patch with
        | none => simp [CstLintRuleReport.patch, h, hc]
        | some cached => simp [CstLintRuleReport.patch, h, hc]
  case _ =>
    intro fp c m li co n mo mb rn
    simp [CstLintRuleReport.patch, CstLintRuleReport.make]

end Fixit
